import Mathlib

/-!
Shallow embedding of the metrics-gathering web service (src/main.py).

The service keeps a single SQLite table of event records (`MetricDB`),
ingests events via POST /metrics (`create_metric`), deletes by id
(`delete_metric`), and renders a dashboard (`read_metrics_page`) that
lists records under an optional filter (source equality, date range),
groups counts by uid and by source, and computes a fixed-order
conversion funnel (`calculate_conversion_funnel`).

Modelling conventions:
- timestamps (`created_at`) are integers (seconds); a calendar date is an
  integer day index `d`, whose midnight instant is `dayStart d = 86400*d`
  and whose last second is `dayStart d + 86399`;
- SQL `COUNT` is list length, floats are rationals;
- the SQL query `order_by(created_at.desc())` carries no secondary sort
  key, so it is modelled as a stable descending sort over the table
  (insertion) order;
- SQLite assigns a fresh rowid of `max existing id + 1` on insert.
-/

/-- One row of the `metrics` table (class MetricDB in src/main.py). -/
structure MetricDB where
  id : Nat
  uid : String
  source : String
  created_at : Int
deriving DecidableEq

/-- The persistent store: the rows of the `metrics` table in insertion
(rowid) order. -/
structure Store where
  metrics : List MetricDB
deriving DecidableEq

/-- The dashboard's filter parameters: optional `source_filter`,
`date_from`, `date_to` query parameters of `read_metrics_page`. -/
structure FilterPred where
  source_filter : Option String
  date_from : Option Int
  date_to : Option Int
deriving DecidableEq

/-- Midnight instant of calendar day `d` (seconds). -/
def dayStart (d : Int) : Int := 86400 * d

/-- The `source == source_filter` clause; Python's `if source_filter:`
skips the clause when the parameter is absent or the empty string. -/
def sourceClause (p : FilterPred) (m : MetricDB) : Bool :=
  match p.source_filter with
  | none => true
  | some sf => if sf = "" then true else m.source == sf

/-- The `created_at >= date_from` clause of the query. -/
def dateFromClause (p : FilterPred) (m : MetricDB) : Bool :=
  match p.date_from with
  | none => true
  | some d => decide (dayStart d ≤ m.created_at)

/-- The `created_at < date_to + timedelta(days=1)` clause of the query. -/
def dateToClause (p : FilterPred) (m : MetricDB) : Bool :=
  match p.date_to with
  | none => true
  | some d => decide (m.created_at < dayStart (d + 1))

/-- Conjunction of the three optional filter clauses, applied uniformly
by every read path of `read_metrics_page`. -/
def matchesPred (p : FilterPred) (m : MetricDB) : Bool :=
  sourceClause p m && dateFromClause p m && dateToClause p m

/-- Stable descending insertion (by key `f`): `x` is placed before the
first element with a strictly smaller key, so among equal keys earlier
elements stay first. -/
def insertByDesc (f : α → Int) (x : α) : List α → List α
  | [] => [x]
  | y :: ys => if f y ≤ f x then x :: y :: ys else y :: insertByDesc f x ys

/-- Stable descending sort by key `f` (models an SQL ORDER BY ... DESC
with no secondary key over rows scanned in table order). -/
def sortByDesc (f : α → Int) : List α → List α
  | [] => []
  | x :: xs => insertByDesc f x (sortByDesc f xs)

/-- The dashboard's metrics query: filter, then
`order_by(MetricDB.created_at.desc()).all()`. -/
def listMetrics (s : Store) (p : FilterPred) : List MetricDB :=
  sortByDesc (fun m => m.created_at) (s.metrics.filter (fun m => matchesPred p m))

/-- The per-uid statistics: count matching rows grouped by `uid`,
ordered by count descending. -/
def group_by_uid (s : Store) (p : FilterPred) : List (String × Nat) :=
  let l := s.metrics.filter (fun m => matchesPred p m)
  sortByDesc (fun pr => (pr.2 : Int))
    (((l.map (fun m => m.uid)).dedup).map
      (fun u => (u, (l.filter (fun m => m.uid == u)).length)))

/-- The per-source statistics: count matching rows grouped by `source`,
ordered by count descending. -/
def group_by_source (s : Store) (p : FilterPred) : List (String × Nat) :=
  let l := s.metrics.filter (fun m => matchesPred p m)
  sortByDesc (fun pr => (pr.2 : Int))
    (((l.map (fun m => m.source)).dedup).map
      (fun src => (src, (l.filter (fun m => m.source == src)).length)))

/-- Largest id present in a row list (0 when empty); SQLite assigns
`maxId + 1` as the next rowid. -/
def maxId (l : List MetricDB) : Nat := l.foldr (fun m acc => max m.id acc) 0

/-- POST /metrics: insert a row with a server-assigned id and the current
timestamp `now`; returns the new store and the returned `metric_id`. -/
def create_metric (s : Store) (uid source : String) (now : Int) : Store × Nat :=
  let newId := maxId s.metrics + 1
  (⟨s.metrics ++ [⟨newId, uid, source, now⟩]⟩, newId)

/-- An HTTP error as raised by the handlers. -/
structure HTTPException where
  status_code : Nat
  detail : String
deriving DecidableEq

/-- DELETE /metrics/id: look the row up; raise 404 "Metric not found"
(store untouched) when absent, otherwise delete that row. Returns the
resulting store and the raised error, if any. -/
def delete_metric (s : Store) (metric_id : Nat) : Store × Option HTTPException :=
  match s.metrics.find? (fun m => m.id == metric_id) with
  | none => (s, some ⟨404, "Metric not found"⟩)
  | some _ => (⟨s.metrics.eraseP (fun m => m.id == metric_id)⟩, none)

/-- One entry of the hard-coded funnel configuration. -/
structure FunnelStep where
  key : String
  name : String
  icon : String
  color : String
deriving DecidableEq

/-- The fixed, ordered funnel configuration of
`calculate_conversion_funnel`. -/
def funnel_steps : List FunnelStep :=
  [⟨"WEBSITE_OPENED", "Зашел на сайт", "🌐", "#10b981"⟩,
   ⟨"MENU_OPENED", "Открыл меню", "📋", "#3b82f6"⟩,
   ⟨"MENU_WHATSAPP", "Нажал на WhatsApp", "📱", "#25d366"⟩,
   ⟨"MENU_TELEGRAM", "Нажал на Telegram", "✈️", "#0088cc"⟩,
   ⟨"CHATBOT_OPENED", "Нажал открыть чат", "💬", "#667eea"⟩,
   ⟨"CHATBOT_USER_MESSAGE", "Написал в чат", "✍️", "#f59e0b"⟩,
   ⟨"CHATBOT_GET_PHONE", "Получили номер телефона", "📞", "#dc2626"⟩]

/-- Count of rows with `uid == key` under the filter (the per-step
COUNT query of the funnel). -/
def stepCount (s : Store) (p : FilterPred) (key : String) : Nat :=
  (s.metrics.filter (fun m => m.uid == key && matchesPred p m)).length

/-- The per-step counts, in funnel order. -/
def funnelCounts (s : Store) (p : FilterPred) : List Nat :=
  funnel_steps.map (fun st => stepCount s p st.key)

/-- The count of funnel step `i` (0 out of range; the funnel has 7
steps). -/
def countAt (s : Store) (p : FilterPred) (i : Nat) : Nat :=
  (funnelCounts s p).getD i 0

/-- One row of the funnel result: the step's configuration, its count,
its conversion percentage relative to the preceding step, and its
display width relative to the first step. -/
structure FunnelResult where
  key : String
  name : String
  icon : String
  color : String
  count : Nat
  conversion : ℚ
  width : ℚ
deriving DecidableEq

/-- The funnel entry at index `i`: step 0 is the 100 percent anchor;
step `i ≥ 1` has conversion `(count / prev_count) * 100` when
`prev_count > 0` else `0.0`, and width `(count / counts[0]) * 100` when
`counts[0] > 0` else `0` (the second loop of
`calculate_conversion_funnel`, reading the phase-1 counts). -/
def funnelEntryAt (s : Store) (p : FilterPred) (i : Nat) (st : FunnelStep) : FunnelResult :=
  if i = 0 then
    ⟨st.key, st.name, st.icon, st.color, countAt s p 0, 100, 100⟩
  else
    ⟨st.key, st.name, st.icon, st.color, countAt s p i,
      if 0 < countAt s p (i - 1) then
        ((countAt s p i : ℚ) / (countAt s p (i - 1) : ℚ)) * 100
      else 0,
      if 0 < countAt s p 0 then
        ((countAt s p i : ℚ) / (countAt s p 0 : ℚ)) * 100
      else 0⟩

/-- The funnel computation of `calculate_conversion_funnel`: the
per-step counts in funnel order, then conversion and width derived per
index. -/
def calculate_conversion_funnel (s : Store) (p : FilterPred) : List FunnelResult :=
  funnel_steps.mapIdx (funnelEntryAt s p)

/-- The ids returned by a sequence of POST /metrics calls
`(uid, source, now)` performed one after the other. -/
def appendAll (s : Store) : List (String × String × Int) → List Nat
  | [] => []
  | (u, src, t) :: rest =>
    let r := create_metric s u src t
    r.2 :: appendAll r.1 rest

/-- The output order asserted by the specification for the list
operation: `created_at` descending, ties broken by descending `id`.
Stated from the spec's words, to be compared against `listMetrics`. -/
def specListOrdered (l : List MetricDB) : Prop :=
  l.Pairwise (fun a b =>
    b.created_at < a.created_at ∨ (b.created_at = a.created_at ∧ b.id < a.id))

/-- The full claim of the spec about the list operation: exactly the
matching records, in the spec's asserted order. -/
def c1Claim (s : Store) (p : FilterPred) : Prop :=
  List.Perm (listMetrics s p) (s.metrics.filter (fun m => matchesPred p m)) ∧
  specListOrdered (listMetrics s p)

/-- The trivial filter: no source, no date bounds. -/
def emptyFilter : FilterPred := ⟨none, none, none⟩

/-- Two rows inserted within the same second: equal `created_at`,
ids 1 and 2. -/
def tieStore : Store := ⟨[⟨1, "A", "s", 0⟩, ⟨2, "A", "s", 0⟩]⟩

/-- Two WEBSITE_OPENED events and one MENU_OPENED event. -/
def demoStore : Store :=
  ⟨[⟨1, "WEBSITE_OPENED", "x", 0⟩, ⟨2, "WEBSITE_OPENED", "x", 0⟩,
    ⟨3, "MENU_OPENED", "x", 0⟩]⟩

/-- The funnel entry the demo store yields at step index 1. -/
def demoStep1 : FunnelResult :=
  funnelEntryAt demoStore emptyFilter 1 (funnel_steps.get ⟨1, by decide⟩)

/-- One WEBSITE_OPENED event and two MENU_OPENED events: the second
step outgrows the first. -/
def surgeStore : Store :=
  ⟨[⟨1, "WEBSITE_OPENED", "x", 0⟩, ⟨2, "MENU_OPENED", "x", 0⟩,
    ⟨3, "MENU_OPENED", "x", 0⟩]⟩

/-- The funnel entry the surge store yields at step index 1. -/
def surgeStep1 : FunnelResult :=
  funnelEntryAt surgeStore emptyFilter 1 (funnel_steps.get ⟨1, by decide⟩)

/-- The anchor entry of the funnel over an empty store. -/
def anchorStep : FunnelResult :=
  ⟨"WEBSITE_OPENED", "Зашел на сайт", "🌐", "#10b981", 0, 100, 100⟩

/-! Generic lemmas about the stable descending sort. -/

theorem mem_insertByDesc {f : α → Int} {x a : α} {l : List α} :
    a ∈ insertByDesc f x l ↔ a = x ∨ a ∈ l := by
  induction l with
  | nil => simp [insertByDesc]
  | cons y ys ih =>
    simp only [insertByDesc]
    split
    · simp [List.mem_cons]
    · simp only [List.mem_cons, ih]
      tauto

theorem insertByDesc_perm (f : α → Int) (x : α) (l : List α) :
    List.Perm (insertByDesc f x l) (x :: l) := by
  induction l with
  | nil => exact List.Perm.refl _
  | cons y ys ih =>
    simp only [insertByDesc]
    split
    · exact List.Perm.refl _
    · exact (ih.cons y).trans (List.Perm.swap x y ys)

theorem sortByDesc_perm (f : α → Int) (l : List α) :
    List.Perm (sortByDesc f l) l := by
  induction l with
  | nil => exact List.Perm.refl _
  | cons x xs ih => exact (insertByDesc_perm f x _).trans (ih.cons x)

theorem pairwise_insertByDesc {f : α → Int} {x : α} {l : List α}
    (h : l.Pairwise (fun a b => f b ≤ f a)) :
    (insertByDesc f x l).Pairwise (fun a b => f b ≤ f a) := by
  induction l with
  | nil => simp [insertByDesc]
  | cons y ys ih =>
    rcases List.pairwise_cons.mp h with ⟨hy, hys⟩
    simp only [insertByDesc]
    split
    · rename_i hxy
      refine List.pairwise_cons.mpr ⟨?_, h⟩
      intro b hb
      rcases List.mem_cons.mp hb with rfl | hb
      · exact hxy
      · exact le_trans (hy b hb) hxy
    · rename_i hxy
      push_neg at hxy
      refine List.pairwise_cons.mpr ⟨?_, ih hys⟩
      intro b hb
      rcases mem_insertByDesc.mp hb with rfl | hb
      · exact le_of_lt hxy
      · exact hy b hb

theorem sortByDesc_pairwise (f : α → Int) (l : List α) :
    (sortByDesc f l).Pairwise (fun a b => f b ≤ f a) := by
  induction l with
  | nil => simp [sortByDesc]
  | cons x xs ih => exact pairwise_insertByDesc ih

/-! Lemmas about the dashboard list query. -/

theorem listMetrics_perm (s : Store) (p : FilterPred) :
    List.Perm (listMetrics s p) (s.metrics.filter (fun m => matchesPred p m)) :=
  sortByDesc_perm _ _

theorem mem_listMetrics {s : Store} {p : FilterPred} {m : MetricDB} :
    m ∈ listMetrics s p ↔ m ∈ s.metrics.filter (fun m => matchesPred p m) :=
  (listMetrics_perm s p).mem_iff

/-! Lemmas about the funnel computation. -/

theorem calc_funnel_length (s : Store) (p : FilterPred) :
    (calculate_conversion_funnel s p).length = 7 := by
  simp [calculate_conversion_funnel, List.length_mapIdx, funnel_steps]

theorem calc_funnel_get? {s : Store} {p : FilterPred} {i : Nat} {fr : FunnelResult}
    (h : (calculate_conversion_funnel s p).get? i = some fr) :
    ∃ hi : i < funnel_steps.length, fr = funnelEntryAt s p i (funnel_steps.get ⟨i, hi⟩) := by
  obtain ⟨hlt, hget⟩ := List.get?_eq_some.mp h
  have hi : i < funnel_steps.length := by
    have := hlt
    rwa [calculate_conversion_funnel, List.length_mapIdx] at this
  refine ⟨hi, ?_⟩
  rw [← hget]
  show (List.mapIdx (funnelEntryAt s p) funnel_steps).get ⟨i, hlt⟩ = _
  exact List.get_mapIdx funnel_steps (funnelEntryAt s p) i hi

theorem calc_funnel_get?_eq (s : Store) (p : FilterPred) (i : Nat)
    (hi : i < funnel_steps.length) :
    (calculate_conversion_funnel s p).get? i
      = some (funnelEntryAt s p i (funnel_steps.get ⟨i, hi⟩)) := by
  have hlen : i < (calculate_conversion_funnel s p).length := by
    rw [calculate_conversion_funnel, List.length_mapIdx]
    exact hi
  rw [List.get?_eq_get hlen]
  congr 1
  show (List.mapIdx (funnelEntryAt s p) funnel_steps).get ⟨i, hlen⟩ = _
  exact List.get_mapIdx funnel_steps (funnelEntryAt s p) i hi

theorem countAt_eq_stepCount (s : Store) (p : FilterPred) (i : Nat)
    (hi : i < funnel_steps.length) :
    countAt s p i = stepCount s p ((funnel_steps.get ⟨i, hi⟩).key) := by
  unfold countAt funnelCounts
  rw [List.getD_eq_get?, List.get?_map, List.get?_eq_get hi]
  rfl

/-! Counting helpers for the grouped statistics. -/

theorem sum_ite_eq_zero {β : Type} [DecidableEq β] (us : List β) (c : β)
    (h : c ∉ us) : (us.map (fun b => if c = b then (1 : Nat) else 0)).sum = 0 := by
  induction us with
  | nil => rfl
  | cons b bs ih =>
    have hcb : c ≠ b := fun hc => h (hc ▸ List.mem_cons_self b bs)
    have hcbs : c ∉ bs := fun hc => h (List.mem_cons_of_mem b hc)
    simp [hcb, ih hcbs]

theorem sum_ite_eq_one {β : Type} [DecidableEq β] (us : List β) (c : β)
    (hnd : us.Nodup) (h : c ∈ us) :
    (us.map (fun b => if c = b then (1 : Nat) else 0)).sum = 1 := by
  induction us with
  | nil => cases h
  | cons b bs ih =>
    rcases List.nodup_cons.mp hnd with ⟨hb, hbs⟩
    rcases List.mem_cons.mp h with rfl | hc
    · simp [sum_ite_eq_zero bs c hb]
    · have hcb : c ≠ b := fun he => hb (he ▸ hc)
      simp [hcb, ih hbs hc]

theorem sum_countP_eq_length {α β : Type} [DecidableEq β] (f : α → β)
    (l : List α) (us : List β) (hnd : us.Nodup) (hcov : ∀ a ∈ l, f a ∈ us) :
    (us.map (fun b => l.countP (fun a => f a == b))).sum = l.length := by
  induction l with
  | nil => simp
  | cons a t ih =>
    have hcovt : ∀ x ∈ t, f x ∈ us := fun x hx => hcov x (List.mem_cons_of_mem a hx)
    have hfun : (fun b => (a :: t).countP (fun x => f x == b))
        = (fun b => t.countP (fun x => f x == b) + if f a = b then (1 : Nat) else 0) := by
      funext b
      rw [List.countP_cons]
      congr 1
      by_cases hb : f a = b
      · simp [hb]
      · simp [hb]
    rw [hfun, List.sum_map_add, ih hcovt,
      sum_ite_eq_one us (f a) hnd (hcov a (List.mem_cons_self a t))]
    simp [Nat.add_comm]

/-! Deletion helper: with unique ids, no surviving row carries the
deleted id. -/

theorem mem_eraseP_id_ne {l : List MetricDB} {x : MetricDB} {mid : Nat}
    (hnd : (l.map (fun m => m.id)).Nodup)
    (hx : x ∈ l.eraseP (fun m => m.id == mid)) : x.id ≠ mid := by
  induction l with
  | nil => cases hx
  | cons a t ih =>
    rcases List.nodup_cons.mp hnd with ⟨ha, hat⟩
    rw [List.eraseP_cons] at hx
    by_cases hpa : a.id = mid
    · rw [show (a.id == mid) = true by simpa using hpa] at hx
      simp only [cond_true] at hx
      intro hxe
      exact ha (List.mem_map.mpr ⟨x, hx, by simp [hxe, hpa]⟩)
    · rw [show (a.id == mid) = false by simpa using hpa] at hx
      simp only [cond_false] at hx
      rcases List.mem_cons.mp hx with rfl | hx
      · exact hpa
      · exact ih hat hx

/-! Id-assignment helpers for POST /metrics. -/

theorem foldr_max_acc (l : List MetricDB) (b : Nat) :
    l.foldr (fun m acc => max m.id acc) b = max (maxId l) b := by
  induction l with
  | nil => simp [maxId]
  | cons a t ih => simp [maxId, ih, Nat.max_assoc]

theorem maxId_create (s : Store) (u src : String) (t : Int) :
    maxId (create_metric s u src t).1.metrics = maxId s.metrics + 1 := by
  show maxId (s.metrics ++ [⟨maxId s.metrics + 1, u, src, t⟩]) = maxId s.metrics + 1
  unfold maxId
  rw [List.foldr_append]
  show s.metrics.foldr (fun m acc => max m.id acc) (max (maxId s.metrics + 1) 0)
      = maxId s.metrics + 1
  rw [foldr_max_acc]
  omega

theorem appendAll_gt (inputs : List (String × String × Int)) :
    ∀ (s : Store), ∀ i ∈ appendAll s inputs, maxId s.metrics < i := by
  induction inputs with
  | nil => intro s i hi; cases hi
  | cons x rest ih =>
    obtain ⟨u, src, t⟩ := x
    intro s i hi
    rcases List.mem_cons.mp hi with rfl | hi
    · show maxId s.metrics < (create_metric s u src t).2
      exact Nat.lt_succ_self _
    · have := ih (create_metric s u src t).1 i hi
      rw [maxId_create] at this
      omega

/-! Claim theorems. -/

/-- C1 counterexample: with two matching rows created in the same
second (equal `created_at`, ids 1 and 2), the query result keeps
insertion order (ascending id), so the spec's asserted tie-break by
descending id fails. -/
theorem c1_counterexample : ¬ c1Claim tieStore emptyFilter := by
  intro h
  have hval : listMetrics tieStore emptyFilter
      = [⟨1, "A", "s", 0⟩, ⟨2, "A", "s", 0⟩] := by decide
  have h2 := h.2
  rw [specListOrdered, hval] at h2
  rcases List.pairwise_cons.mp h2 with ⟨hrel, _⟩
  have hr := hrel ⟨2, "A", "s", 0⟩ (by simp)
  rcases hr with hlt | ⟨_, hid⟩
  · exact absurd hlt (by decide)
  · exact absurd hid (by decide)

/-- C1 (amended): for every store state and predicate, the list
operation returns exactly the records satisfying the predicate, ordered
by `created_at` descending; the code adds no secondary sort key, so the
relative order of records with equal `created_at` is not the spec's
descending-id order (the query preserves table order on ties). -/
theorem c1_list_filter_sorted (s : Store) (p : FilterPred) :
    List.Perm (listMetrics s p) (s.metrics.filter (fun m => matchesPred p m)) ∧
    (listMetrics s p).Pairwise (fun a b => b.created_at ≤ a.created_at) :=
  ⟨listMetrics_perm s p, sortByDesc_pairwise _ _⟩

/-- C2: for every store state and predicate, the first step of the
funnel result has conversion exactly 100.0 and width exactly 100,
regardless of that step's count, including when the count is 0. -/
theorem c2_first_step_anchor (s : Store) (p : FilterPred) (fr : FunnelResult)
    (h : (calculate_conversion_funnel s p).get? 0 = some fr) :
    fr.conversion = 100 ∧ fr.width = 100 := by
  obtain ⟨hi, hfr⟩ := calc_funnel_get? h
  subst hfr
  simp [funnelEntryAt]

/-- C2 witness: over the empty store the first funnel entry is the
anchor with count 0, conversion 100 and width 100. -/
theorem c2_first_step_anchor_witness :
    anchorStep.count = 0 ∧ anchorStep.conversion = 100 ∧ anchorStep.width = 100 :=
  ⟨by decide, c2_first_step_anchor ⟨[]⟩ emptyFilter anchorStep (by decide)⟩

/-- C3: for every store state, predicate and funnel step at position
i ≥ 1, the conversion equals 0.0 when the preceding step's count is 0
and 100 * count[i] / count[i-1] otherwise, with no upper clamp: it
exceeds 100 whenever count[i] > count[i-1] > 0. -/
theorem c3_step_conversion (s : Store) (p : FilterPred) (i : Nat) (fr : FunnelResult)
    (h : (calculate_conversion_funnel s p).get? i = some fr) (h1 : 1 ≤ i) :
    (fr.conversion =
      if countAt s p (i - 1) = 0 then 0
      else 100 * (countAt s p i : ℚ) / (countAt s p (i - 1) : ℚ)) ∧
    (0 < countAt s p (i - 1) → countAt s p (i - 1) < countAt s p i →
      100 < fr.conversion) := by
  obtain ⟨hi, hfr⟩ := calc_funnel_get? h
  subst hfr
  have hne : i ≠ 0 := by omega
  rcases Nat.eq_zero_or_pos (countAt s p (i - 1)) with h0 | h0
  · refine ⟨?_, ?_⟩
    · simp [funnelEntryAt, hne, h0]
    · intro hpos _
      omega
  · have hnz : ¬ countAt s p (i - 1) = 0 := by omega
    have hprev : (0 : ℚ) < (countAt s p (i - 1) : ℚ) := by exact_mod_cast h0
    refine ⟨?_, ?_⟩
    · simp only [funnelEntryAt, if_neg hne, if_pos h0, if_neg hnz]
      rw [mul_comm, mul_div_assoc]
    · intro _ hlt
      simp only [funnelEntryAt, if_neg hne, if_pos h0]
      have hdiv : (1 : ℚ) < (countAt s p i : ℚ) / (countAt s p (i - 1) : ℚ) := by
        rw [lt_div_iff hprev]
        · rw [one_mul]
          exact_mod_cast hlt
      calc (100 : ℚ) = 1 * 100 := by ring
        _ < (countAt s p i : ℚ) / (countAt s p (i - 1) : ℚ) * 100 :=
            mul_lt_mul_of_pos_right hdiv (by norm_num)

/-- C3 witness: in the demo store (two WEBSITE_OPENED, one MENU_OPENED:
counts 2 and 1) step 1's conversion matches the 100 * 1 / 2 formula. -/
theorem c3_step_conversion_witness :
    (countAt demoStore emptyFilter 0 = 2 ∧ countAt demoStore emptyFilter 1 = 1) ∧
    demoStep1.conversion =
      if countAt demoStore emptyFilter 0 = 0 then 0
      else 100 * (countAt demoStore emptyFilter 1 : ℚ)
        / (countAt demoStore emptyFilter 0 : ℚ) :=
  ⟨by decide,
    (c3_step_conversion demoStore emptyFilter 1 demoStep1
      (calc_funnel_get?_eq demoStore emptyFilter 1 (by decide)) (by decide)).1⟩

/-- C4: for every store state, predicate and funnel step at position
i ≥ 1, the width equals 0 when the first step's count is 0 and
100 * count[i] / count[0] otherwise. -/
theorem c4_step_width (s : Store) (p : FilterPred) (i : Nat) (fr : FunnelResult)
    (h : (calculate_conversion_funnel s p).get? i = some fr) (h1 : 1 ≤ i) :
    fr.width =
      if countAt s p 0 = 0 then 0
      else 100 * (countAt s p i : ℚ) / (countAt s p 0 : ℚ) := by
  obtain ⟨hi, hfr⟩ := calc_funnel_get? h
  subst hfr
  have hne : i ≠ 0 := by omega
  rcases Nat.eq_zero_or_pos (countAt s p 0) with h0 | h0
  · simp [funnelEntryAt, hne, h0]
  · have hnz : ¬ countAt s p 0 = 0 := by omega
    simp only [funnelEntryAt, if_neg hne, if_pos h0, if_neg hnz]
    rw [mul_comm, mul_div_assoc]

/-- C4 witness: in the demo store step 1 reports width 50, matching the
100 * 1 / 2 formula against the first step's count. -/
theorem c4_step_width_witness :
    demoStep1.width =
      if countAt demoStore emptyFilter 0 = 0 then 0
      else 100 * (countAt demoStore emptyFilter 1 : ℚ)
        / (countAt demoStore emptyFilter 0 : ℚ) :=
  c4_step_width demoStore emptyFilter 1 demoStep1
    (calc_funnel_get?_eq demoStore emptyFilter 1 (by decide)) (by decide)

/-- C10: the width is not clamped either: for every store state,
predicate and step at position i ≥ 1, whenever
count[i] > count[0] > 0 the reported width 100 * count[i] / count[0]
exceeds 100. -/
theorem c10_width_unclamped (s : Store) (p : FilterPred) (i : Nat) (fr : FunnelResult)
    (h : (calculate_conversion_funnel s p).get? i = some fr) (h1 : 1 ≤ i)
    (h0 : 0 < countAt s p 0) (hgt : countAt s p 0 < countAt s p i) :
    100 < fr.width := by
  obtain ⟨hi, hfr⟩ := calc_funnel_get? h
  subst hfr
  have hne : i ≠ 0 := by omega
  have hc0 : (0 : ℚ) < (countAt s p 0 : ℚ) := by exact_mod_cast h0
  simp only [funnelEntryAt, if_neg hne, if_pos h0]
  have hdiv : (1 : ℚ) < (countAt s p i : ℚ) / (countAt s p 0 : ℚ) := by
    rw [lt_div_iff hc0]
    · rw [one_mul]
      exact_mod_cast hgt
  calc (100 : ℚ) = 1 * 100 := by ring
    _ < (countAt s p i : ℚ) / (countAt s p 0 : ℚ) * 100 :=
        mul_lt_mul_of_pos_right hdiv (by norm_num)

/-- C10 witness: with one WEBSITE_OPENED and two MENU_OPENED events the
second step's width is 200, exceeding 100. -/
theorem c10_width_unclamped_witness :
    (0 < countAt surgeStore emptyFilter 0 ∧
      countAt surgeStore emptyFilter 0 < countAt surgeStore emptyFilter 1) ∧
    100 < surgeStep1.width :=
  ⟨by decide,
    c10_width_unclamped surgeStore emptyFilter 1 surgeStep1
      (calc_funnel_get?_eq surgeStore emptyFilter 1 (by decide))
      (by decide) (by decide) (by decide)⟩

/-- C5: a predicate whose `date_to` bound is day D applies the upper
bound as `created_at < date_to + 1 day`: it never excludes a record at
D 23:59:59 (the predicate reduces to its remaining clauses there) and
always rejects one at D+1 00:00:00, while `date_from` is applied as the
inclusive condition `created_at >= date_from`. -/
theorem c5_date_range_bounds (p : FilterPred) (D : Int) (m1 m2 : MetricDB)
    (hD : p.date_to = some D) :
    (∀ m : MetricDB, dateToClause p m = decide (m.created_at < dayStart D + 86400)) ∧
    (m1.created_at = dayStart D + 86399 →
      dateToClause p m1 = true ∧
      matchesPred p m1 = (sourceClause p m1 && dateFromClause p m1)) ∧
    (m2.created_at = dayStart (D + 1) → matchesPred p m2 = false) ∧
    (∀ (d : Int) (m : MetricDB), p.date_from = some d →
      dateFromClause p m = decide (dayStart d ≤ m.created_at)) := by
  have hday : dayStart (D + 1) = dayStart D + 86400 := by
    unfold dayStart; ring
  refine ⟨?_, ?_, ?_, ?_⟩
  · intro m
    simp only [dateToClause, hD]
    rw [hday]
  · intro h1
    have hco : dateToClause p m1 = true := by
      simp only [dateToClause, hD]
      rw [hday, h1]
      simp
    refine ⟨hco, ?_⟩
    rw [matchesPred, hco, Bool.and_true]
  · intro h2
    have hco : dateToClause p m2 = false := by
      simp only [dateToClause, hD]
      rw [h2]
      simp
    rw [matchesPred, hco, Bool.and_false]
  · intro d m hd
    simp only [dateFromClause, hd]

/-- C5 witness: for day 0, the record with the day's last second
(86399) passes the filter and the record at the next midnight (86400)
is rejected. -/
theorem c5_date_range_bounds_witness :
    matchesPred ⟨none, none, some 0⟩ ⟨1, "a", "s", 86399⟩ = true ∧
    matchesPred ⟨none, none, some 0⟩ ⟨2, "a", "s", 86400⟩ = false := by
  have h := c5_date_range_bounds ⟨none, none, some 0⟩ 0
    ⟨1, "a", "s", 86399⟩ ⟨2, "a", "s", 86400⟩ rfl
  constructor
  · rw [(h.2.1 (by decide)).2]
    decide
  · exact h.2.2.1 (by decide)

/-- C6: delete(id) raises exactly the 404 error with detail "Metric not
found" if and only if no stored record carries that id, leaving the
store unchanged in that case; after a successful delete, the list
operation under any predicate never returns a record with that id. -/
theorem c6_delete_semantics (s : Store) (mid : Nat)
    (hnd : (s.metrics.map (fun m => m.id)).Nodup) :
    ((delete_metric s mid).2 = some ⟨404, "Metric not found"⟩ ↔
      ∀ m ∈ s.metrics, m.id ≠ mid) ∧
    ((delete_metric s mid).2 ≠ none → (delete_metric s mid).1 = s) ∧
    ((delete_metric s mid).2 = none →
      ∀ (p : FilterPred) (m : MetricDB), m ∈ listMetrics (delete_metric s mid).1 p →
        m.id ≠ mid) := by
  rcases hfind : s.metrics.find? (fun m => m.id == mid) with _ | m0
  · have hdel : delete_metric s mid = (s, some ⟨404, "Metric not found"⟩) := by
      rw [delete_metric, hfind]
    refine ⟨?_, ?_, ?_⟩
    · rw [hdel]
      simp only [true_iff]
      intro m hm
      have := List.find?_eq_none.mp hfind m hm
      simpa using this
    · intro _
      rw [hdel]
    · intro hnone
      rw [hdel] at hnone
      cases hnone
  · have hdel : delete_metric s mid
        = (⟨s.metrics.eraseP (fun m => m.id == mid)⟩, none) := by
      rw [delete_metric, hfind]
    have hm0 : m0 ∈ s.metrics ∧ m0.id = mid := by
      refine ⟨List.mem_of_find?_eq_some hfind, ?_⟩
      have := List.find?_some hfind
      simpa using this
    refine ⟨?_, ?_, ?_⟩
    · rw [hdel]
      refine iff_of_false (by simp) ?_
      intro hall
      exact hall m0 hm0.1 hm0.2
    · intro hne
      rw [hdel] at hne
      exact absurd rfl hne
    · intro _ p m hm
      rw [hdel] at hm
      have hmem : m ∈ s.metrics.eraseP (fun m => m.id == mid) :=
        List.mem_of_mem_filter (mem_listMetrics.mp hm)
      exact mem_eraseP_id_ne hnd hmem

/-- C6 witness: in a one-record store with id 1, deleting id 2 raises
the 404 error and deleting id 1 succeeds with the record gone from the
listing. -/
theorem c6_delete_semantics_witness :
    (delete_metric ⟨[⟨1, "a", "s", 0⟩]⟩ 2).2 = some ⟨404, "Metric not found"⟩ ∧
    (delete_metric ⟨[⟨1, "a", "s", 0⟩]⟩ 1).2 = none := by
  constructor
  · exact (c6_delete_semantics ⟨[⟨1, "a", "s", 0⟩]⟩ 2 (by decide)).1.mpr (by decide)
  · decide

/-- C7: for every store state and predicate, the per-uid counts of the
grouped statistics sum to the number of records the list operation
returns under the same predicate. -/
theorem c7_group_counts_sum (s : Store) (p : FilterPred) :
    ((group_by_uid s p).map (fun pr => pr.2)).sum = (listMetrics s p).length := by
  simp only [group_by_uid, listMetrics]
  set l := s.metrics.filter (fun m => matchesPred p m) with hl
  rw [(sortByDesc_perm (fun m : MetricDB => m.created_at) l).length_eq]
  rw [((sortByDesc_perm (fun pr : String × Nat => (pr.2 : Int)) _).map
    (fun pr => pr.2)).sum_eq]
  rw [List.map_map]
  have hcomp : ((fun pr : String × Nat => pr.2)
        ∘ fun u => (u, (l.filter (fun m => m.uid == u)).length))
      = fun u => l.countP (fun m => m.uid == u) := by
    funext u
    simp [Function.comp, List.countP_eq_length_filter]
  rw [hcomp]
  exact sum_countP_eq_length (fun m => m.uid) l ((l.map (fun m => m.uid)).dedup)
    (List.nodup_dedup _)
    (fun a ha => List.mem_dedup.mpr (List.mem_map_of_mem _ ha))

/-- Every pair produced by a grouped count has a strictly positive
count: its uid (or source) value occurs in the filtered list. -/
theorem pos_of_mem_grouped {l : List MetricDB} {g : MetricDB → String}
    {pr : String × Nat}
    (hpr : pr ∈ ((l.map g).dedup).map
      (fun u => (u, (l.filter (fun m => g m == u)).length))) :
    0 < pr.2 := by
  obtain ⟨u, hu, rfl⟩ := List.mem_map.mp hpr
  obtain ⟨m, hm, rfl⟩ := List.mem_map.mp (List.mem_dedup.mp hu)
  have hmem : m ∈ l.filter (fun x => g x == g m) :=
    List.mem_filter.mpr ⟨hm, by simp⟩
  exact List.length_pos.mpr (List.ne_nil_of_mem hmem)

/-- C8: the read-path aggregations are total on every store state and
predicate, the empty store and empty matches included: the funnel always
yields its 7 entries, every conversion and width is a defined
non-negative rational (the zero-denominator branches are guarded),
every funnel count is the defined count of its step key (0 when nothing
matches), and every grouped count is a positive integer. -/
theorem c8_aggregations_total (s : Store) (p : FilterPred) :
    (calculate_conversion_funnel s p).length = 7 ∧
    (∀ fr ∈ calculate_conversion_funnel s p,
      0 ≤ fr.conversion ∧ 0 ≤ fr.width ∧ fr.count = stepCount s p fr.key) ∧
    (∀ pr ∈ group_by_uid s p, 0 < pr.2) ∧
    (∀ pr ∈ group_by_source s p, 0 < pr.2) := by
  refine ⟨calc_funnel_length s p, ?_, ?_, ?_⟩
  · intro fr hfr
    obtain ⟨⟨i, hi⟩, hget⟩ := List.mem_iff_get.mp hfr
    have hget? : (calculate_conversion_funnel s p).get? i = some fr := by
      rw [List.get?_eq_get hi, hget]
    obtain ⟨hlt, hfr'⟩ := calc_funnel_get? hget?
    subst hfr'
    set st := funnel_steps.get ⟨i, hlt⟩ with hst
    by_cases h0 : i = 0
    · subst h0
      refine ⟨by simp [funnelEntryAt], by simp [funnelEntryAt], ?_⟩
      simp only [funnelEntryAt, if_pos rfl]
      exact countAt_eq_stepCount s p 0 hlt
    · refine ⟨?_, ?_, ?_⟩
      · simp only [funnelEntryAt, if_neg h0]
        split
        · positivity
        · exact le_refl 0
      · simp only [funnelEntryAt, if_neg h0]
        split
        · positivity
        · exact le_refl 0
      · simp only [funnelEntryAt, if_neg h0]
        exact countAt_eq_stepCount s p i hlt
  · intro pr hpr
    rw [group_by_uid] at hpr
    exact pos_of_mem_grouped ((sortByDesc_perm _ _).mem_iff.mp hpr)
  · intro pr hpr
    rw [group_by_source] at hpr
    exact pos_of_mem_grouped ((sortByDesc_perm _ _).mem_iff.mp hpr)

/-- C8 witness: over the empty store the funnel still yields 7 entries
and over the demo store the grouped uid pair for WEBSITE_OPENED has the
positive count 2. -/
theorem c8_aggregations_total_witness :
    (calculate_conversion_funnel ⟨[]⟩ emptyFilter).length = 7 ∧
    (("WEBSITE_OPENED", 2) : String × Nat) ∈ group_by_uid demoStore emptyFilter ∧
    0 < (("WEBSITE_OPENED", 2) : String × Nat).2 :=
  ⟨(c8_aggregations_total ⟨[]⟩ emptyFilter).1,
    by decide,
    (c8_aggregations_total demoStore emptyFilter).2.2.1 ("WEBSITE_OPENED", 2)
      (by decide)⟩

/-- The ids returned by successive POST /metrics calls are pairwise
strictly increasing. -/
theorem appendAll_pairwise (s : Store) (inputs : List (String × String × Int)) :
    (appendAll s inputs).Pairwise (· < ·) := by
  induction inputs generalizing s with
  | nil => exact List.Pairwise.nil
  | cons x rest ih =>
    obtain ⟨u, src, t⟩ := x
    refine List.pairwise_cons.mpr ⟨?_, ih (create_metric s u src t).1⟩
    intro j hj
    have hgt := appendAll_gt rest (create_metric s u src t).1 j hj
    rw [maxId_create] at hgt
    show maxId s.metrics + 1 < j
    omega

/-- C9: for every starting store state and every sequence of POST
/metrics calls, the returned metric ids are strictly increasing in call
order and therefore unique. -/
theorem c9_ids_unique_increasing (s : Store) (inputs : List (String × String × Int)) :
    (appendAll s inputs).Pairwise (· < ·) ∧ (appendAll s inputs).Nodup :=
  ⟨appendAll_pairwise s inputs,
    (appendAll_pairwise s inputs).imp (fun h => Nat.ne_of_lt h)⟩
